import Mathlib

/-!
Verification of the rdump backup orchestrator core against its
natural-language specification.

The development shallowly embeds the relevant Rust modules:

- `src/actions/runner.rs` : the transactional Action/Runner engine.
  Actions are modelled by `ActionSpec`, which records the outcome each
  trait method would produce (`performError`, `cleanupError`) together
  with the `describe` text.  `Runner.run` returns the trace of observable
  events (perform invocations, cleanup invocations, printed dry-run
  lines) together with the returned error, mirroring the control flow of
  `Runner::run` and `Runner::run_cleanups`.

- `src/zfs.rs` : inventory parsing (`SnapBuilder`, `Zfs::new` line
  handling), the clone planner (`Zfs::clone`, `Zfs::clone_one`), and the
  Hanoi retention pruner (`Zfs::prune_hanoi`, `Zfs::prune`).  External
  command executions (`zfs send`, `pv`, `zfs receive`, `zfs destroy`,
  `zfs bookmark`) are modelled as effects appearing in a trace; where an
  external command may fail, the model is parameterised by the failure
  outcome.

- `src/config.rs` : the name-filter target selection of
  `ConfigFile::build_runner` and `NameFilter::contains`.
-/

/-! ## Action runner (src/actions/runner.rs) -/

/-- Model of one boxed `dyn Action`: the outcome its `perform` and
`cleanup` would produce (`none` = `Ok(())`, `some e` = `Err(e)`), and its
`describe` text. -/
structure ActionSpec where
  describe : String
  performError : Option String
  cleanupError : Option String
deriving DecidableEq, Repr

/-- Observable events of a `Runner::run` execution: `performed i` means
`perform` was invoked on the action at position `i`; `cleaned i ok` means
`cleanup` was invoked on the action at position `i` and returned success
iff `ok` (a failed cleanup is only logged); `would s` means the line
`s` was printed in pretend mode. -/
inductive REvent where
  | performed (i : Nat)
  | cleaned (i : Nat) (ok : Bool)
  | would (s : String)
deriving DecidableEq, Repr

/-- `Runner::run_cleanups`: pop actions off the cleanup stack (most
recently pushed first) and invoke `cleanup` on each one unconditionally;
errors are logged and do not stop the pass. -/
def Runner.run_cleanups (cleanups : List (Nat × ActionSpec)) : List REvent :=
  cleanups.reverse.map (fun p => REvent.cleaned p.1 p.2.cleanupError.isNone)

/-- The loop body of `Runner::run`: `idx` is the position of the next
action, `cleanups` the stack of successfully performed actions. -/
def Runner.runFrom (pretend : Bool) (idx : Nat) (cleanups : List (Nat × ActionSpec)) :
    List ActionSpec → List REvent × Option String
  | [] => ([], none)
  | a :: rest =>
    if pretend then
      let r := Runner.runFrom pretend (idx + 1) cleanups rest
      (REvent.would ("would: " ++ a.describe) :: r.1, r.2)
    else
      match a.performError with
      | none =>
        let r := Runner.runFrom pretend (idx + 1) (cleanups ++ [(idx, a)]) rest
        (REvent.performed idx :: r.1, r.2)
      | some err =>
        (REvent.performed idx :: Runner.run_cleanups cleanups, some err)

/-- `Runner::run`: consume the action list; in pretend mode print one
`would:` line per action, otherwise perform in push order, stacking each
success for reverse-order cleanup on the first failure, which is the
returned error. -/
def Runner.run (actions : List ActionSpec) (pretend : Bool) : List REvent × Option String :=
  Runner.runFrom pretend 0 [] actions

lemma Runner.runFrom_fail (a : ActionSpec) (err : String) (ha : a.performError = some err)
    (post : List ActionSpec) :
    ∀ (pre : List ActionSpec) (idx : Nat) (cleanups : List (Nat × ActionSpec)),
      (∀ b ∈ pre, b.performError = none) →
      Runner.runFrom false idx cleanups (pre ++ a :: post) =
        ((List.range' idx (pre.length + 1)).map REvent.performed ++
          Runner.run_cleanups (cleanups ++ pre.enumFrom idx), some err)
  | [], idx, cleanups, _ => by
    simp [Runner.runFrom, ha, List.range'_succ, List.enumFrom]
  | b :: pre, idx, cleanups, hpre => by
    have hb : b.performError = none := hpre b (List.mem_cons_self b pre)
    have ih := Runner.runFrom_fail a err ha post pre (idx + 1) (cleanups ++ [(idx, b)])
      (fun c hc => hpre c (List.mem_cons_of_mem b hc))
    simp only [List.cons_append, Runner.runFrom, hb, Bool.false_eq_true, if_false,
      List.append_eq]
    rw [ih]
    simp [List.range'_succ, List.enumFrom, List.append_assoc]

/-- C1: when actions `0..k-1` succeed and the action at position `k`
fails `perform` with error `err`, `Runner::run false` invokes `perform`
exactly on positions `0..k` (in order), then invokes `cleanup` exactly on
positions `k-1` down to `0` (strict reverse order of performance, each
cleanup outcome merely logged), never touches the remaining actions, and
returns the original perform error `err` (cleanup outcomes, recorded in
`cleanupError`, never replace it). -/
theorem runner_fail_reverse_cleanup (pre post : List ActionSpec) (a : ActionSpec)
    (err : String) (hpre : ∀ b ∈ pre, b.performError = none)
    (ha : a.performError = some err) :
    Runner.run (pre ++ a :: post) false =
      ((List.range' 0 (pre.length + 1)).map REvent.performed ++
        (pre.enum.reverse.map (fun p => REvent.cleaned p.1 p.2.cleanupError.isNone)),
       some err) := by
  have h := Runner.runFrom_fail a err ha post pre 0 [] hpre
  simpa [Runner.run, Runner.run_cleanups, List.enum] using h

/-- Witness for C1: three actions, the second fails; perform runs on
positions 0 and 1, cleanup runs on position 0 only, the third action is
untouched, and the original error is returned. -/
theorem runner_fail_reverse_cleanup_witness :
    Runner.run [⟨"a", none, none⟩, ⟨"b", some "boom", some "cboom"⟩, ⟨"c", none, none⟩] false =
      ([REvent.performed 0, REvent.performed 1, REvent.cleaned 0 true], some "boom") := by
  have h := runner_fail_reverse_cleanup [⟨"a", none, none⟩] [⟨"c", none, none⟩]
    ⟨"b", some "boom", some "cboom"⟩ "boom" (by intro b hb; simp at hb; simp [hb]) rfl
  simpa using h

lemma Runner.runFrom_pretend (actions : List ActionSpec) :
    ∀ (idx : Nat) (cleanups : List (Nat × ActionSpec)),
      Runner.runFrom true idx cleanups actions =
        (actions.map (fun a => REvent.would ("would: " ++ a.describe)), none) := by
  induction actions with
  | nil => intro idx cleanups; simp [Runner.runFrom]
  | cons a rest ih => intro idx cleanups; simp [Runner.runFrom, ih]

/-- C9: for every non-empty action sequence, `Runner::run true` (pretend
mode) invokes neither `perform` nor `cleanup` on any action, prints
exactly one `would: <describe>` line per action in the original push
order, and always returns success. -/
theorem runner_pretend_only_describes (actions : List ActionSpec) (_h : actions ≠ []) :
    Runner.run actions true =
      (actions.map (fun a => REvent.would ("would: " ++ a.describe)), none) := by
  simpa [Runner.run] using Runner.runFrom_pretend actions 0 []

/-- Witness for C9 at a concrete two-action sequence. -/
theorem runner_pretend_only_describes_witness :
    Runner.run [⟨"x", some "e1", none⟩, ⟨"y", none, some "e2"⟩] true =
      ([REvent.would "would: x", REvent.would "would: y"], none) := by
  have h := runner_pretend_only_describes
    [⟨"x", some "e1", none⟩, ⟨"y", none, some "e2"⟩] (by decide)
  simpa using h

/-! ## Configuration target selection (src/config.rs) -/

/-- `NameFilter::new`: an empty name list means no filtering (`None`),
otherwise the names form the filter set. -/
def NameFilter.new (names : List String) : Option (List String) :=
  if names.length = 0 then none else some names

/-- `NameFilter::contains`: with no filter every name passes, otherwise
membership in the set decides. -/
def NameFilter.contains (f : Option (List String)) (name : String) : Bool :=
  match f with
  | none => true
  | some set => set.contains name

/-- The target-selection loop of `ConfigFile::build_runner`: iterate over
the configured target names and `break` (not `continue`) at the first
name the filter rejects.  Returns the names whose actions end up in the
runner. -/
def ConfigFile.targets_loop (f : Option (List String)) : List String → List String
  | [] => []
  | n :: rest => if NameFilter.contains f n then n :: ConfigFile.targets_loop f rest else []

/-- `ConfigFile::build_runner`, restricted to which configured targets
contribute actions: the simple-target loop and the LVM-target loop each
run `targets_loop` over their configured name list.  (The phase grouping
and the concrete actions pushed per target are not modelled; the claim is
only about which targets are included.) -/
def ConfigFile.build_runner_targets (simple lvm : List String) (names : List String) :
    List String × List String :=
  let f := NameFilter.new names
  (ConfigFile.targets_loop f simple, ConfigFile.targets_loop f lvm)

lemma ConfigFile.targets_loop_none (l : List String) :
    ConfigFile.targets_loop none l = l := by
  induction l with
  | nil => rfl
  | cons n rest ih => simp [ConfigFile.targets_loop, NameFilter.contains, ih]

lemma ConfigFile.targets_loop_stops (f : Option (List String)) (n : String)
    (l2 : List String) (hn : NameFilter.contains f n = false) :
    ∀ (l1 : List String), (∀ m ∈ l1, NameFilter.contains f m = true) →
      ConfigFile.targets_loop f (l1 ++ n :: l2) = l1
  | [], _ => by simp [ConfigFile.targets_loop, hn]
  | m :: l1, h => by
    have hm : NameFilter.contains f m = true := h m (List.mem_cons_self m l1)
    have ih := ConfigFile.targets_loop_stops f n l2 hn l1
      (fun c hc => h c (List.mem_cons_of_mem m hc))
    simp [ConfigFile.targets_loop, hm, ih]

/-- C10: `build_runner` target selection.  With an empty name filter all
configured simple and LVM targets are included.  With a non-empty filter,
each loop stops at the first entry whose name the filter rejects, so
every later entry of that list is omitted from the resulting runner even
when its own name is in the filter: only the longest all-accepted front
segment is included. -/
theorem build_runner_filter_stops_at_first_miss (simple lvm names : List String) :
    (names = [] → ConfigFile.build_runner_targets simple lvm names = (simple, lvm)) ∧
    (∀ l1 n l2, simple = l1 ++ n :: l2 →
      (∀ m ∈ l1, NameFilter.contains (NameFilter.new names) m = true) →
      NameFilter.contains (NameFilter.new names) n = false →
      (ConfigFile.build_runner_targets simple lvm names).1 = l1) ∧
    (∀ l1 n l2, lvm = l1 ++ n :: l2 →
      (∀ m ∈ l1, NameFilter.contains (NameFilter.new names) m = true) →
      NameFilter.contains (NameFilter.new names) n = false →
      (ConfigFile.build_runner_targets simple lvm names).2 = l1) := by
  refine ⟨?_, ?_, ?_⟩
  · intro h
    subst h
    simp [ConfigFile.build_runner_targets, NameFilter.new,
      ConfigFile.targets_loop_none]
  · intro l1 n l2 hs hall hn
    subst hs
    simp [ConfigFile.build_runner_targets,
      ConfigFile.targets_loop_stops (NameFilter.new names) n l2 hn l1 hall]
  · intro l1 n l2 hs hall hn
    subst hs
    simp [ConfigFile.build_runner_targets,
      ConfigFile.targets_loop_stops (NameFilter.new names) n l2 hn l1 hall]

/-- Witness for C10: with filter `{a, b}` over simple targets
`[a, x, b]`, iteration stops at `x`, so `b` is omitted from the runner
even though `b` is in the filter. -/
theorem build_runner_filter_stops_at_first_miss_witness :
    (ConfigFile.build_runner_targets ["a", "x", "b"] [] ["a", "b"]).1 = ["a"] :=
  (build_runner_filter_stops_at_first_miss ["a", "x", "b"] [] ["a", "b"]).2.1
    ["a"] "x" ["b"] rfl (by decide) (by decide)

/-! ## Inventory parsing (src/zfs.rs, `Zfs::new` and `SnapBuilder`) -/

/-- An inventory node: volume name, snapshot names in creation order
(oldest first), and mountpoint. -/
structure Filesystem where
  name : String
  snaps : List String
  mount : String
deriving DecidableEq, Repr

/-- Model of Rust `str::splitn(2, sep)` restricted to the two-field
outcome: split at the first occurrence of `sep`, returning `none` when
`sep` does not occur (the one-field outcome). -/
def splitFirst (sep : Char) : List Char → Option (List Char × List Char)
  | [] => none
  | c :: rest =>
    if c = sep then some ([], rest)
    else (splitFirst sep rest).map (fun p => (c :: p.1, p.2))

/-- Fatal outcomes of inventory parsing.  `badLine` is the returned
`anyhow` error for a line without two tab-separated fields; the two
snapshot-adjacency violations are `panic!` calls in
`SnapBuilder::push_snap`, modelled as fatal parse errors. -/
inductive ParseError where
  | badLine (line : String)
  | snapBeforeVolume (vol snap : String)
  | snapWrongVolume (vol snap : String)
deriving DecidableEq, Repr

/-- `SnapBuilder::push_volume`: start a new filesystem entry at the end
of the work list. -/
def SnapBuilder.push_volume (work : List Filesystem) (name mount : String) :
    List Filesystem :=
  work ++ [⟨name, [], mount⟩]

/-- `SnapBuilder::push_snap`: the snapshot must belong to the most
recently started filesystem; an empty work list or a differing volume
name is a fatal failure (a `panic!` in the source). -/
def SnapBuilder.push_snap (work : List Filesystem) (name snap : String) :
    Except ParseError (List Filesystem) :=
  match work.getLast? with
  | none => .error (.snapBeforeVolume name snap)
  | some fs =>
    if fs.name = name then
      .ok (work.dropLast ++ [⟨fs.name, fs.snaps ++ [snap], fs.mount⟩])
    else .error (.snapWrongVolume name snap)

/-- One line of the `Zfs::new` listing loop: split on the first tab (two
fields required), then on the first `@` to distinguish a bare volume line
from a `volume@snapshot` line. -/
def Zfs.parseLine (work : List Filesystem) (line : String) :
    Except ParseError (List Filesystem) :=
  match splitFirst '\t' line.toList with
  | none => .error (.badLine line)
  | some (nm, mnt) =>
    match splitFirst '@' nm with
    | none => .ok (SnapBuilder.push_volume work (String.mk nm) (String.mk mnt))
    | some (vol, snap) => SnapBuilder.push_snap work (String.mk vol) (String.mk snap)

/-- The listing loop of `Zfs::new` over all lines, threading the
`SnapBuilder` work list; the first failure aborts construction. -/
def Zfs.parseLines (work : List Filesystem) : List String → Except ParseError (List Filesystem)
  | [] => .ok work
  | l :: rest =>
    match Zfs.parseLine work l with
    | .error e => .error e
    | .ok w => Zfs.parseLines w rest

/-- Inventory construction from a listing, starting from an empty
builder (`Zfs::new`). -/
def Zfs.parseListing (lines : List String) : Except ParseError (List Filesystem) :=
  Zfs.parseLines [] lines

lemma Zfs.parseLines_append (xs ys : List String) :
    ∀ (work : List Filesystem),
      Zfs.parseLines work (xs ++ ys) =
        match Zfs.parseLines work xs with
        | .error e => .error e
        | .ok w => Zfs.parseLines w ys := by
  induction xs with
  | nil => intro work; simp [Zfs.parseLines]
  | cons l rest ih =>
    intro work
    simp only [List.cons_append, Zfs.parseLines]
    cases Zfs.parseLine work l with
    | error e => rfl
    | ok w => exact ih w

/-- C8: if a listing has a well-formed prefix that parses to builder
state `work`, followed by a `volume@snapshot` line whose volume either
precedes any started filesystem (`work = []`) or differs from the most
recently started filesystem, then inventory construction fails fatally
with the corresponding parse error (a `panic!` in the source) instead of
succeeding or attaching the snapshot elsewhere. -/
theorem parse_snap_adjacency_fails (pre suf : List String) (line : String)
    (work : List Filesystem) (nm mnt vol snap : List Char)
    (hpre : Zfs.parseLines [] pre = .ok work)
    (hline : splitFirst '\t' line.toList = some (nm, mnt))
    (hsnap : splitFirst '@' nm = some (vol, snap))
    (hbad : work = [] ∨ ∃ fs, work.getLast? = some fs ∧ fs.name ≠ String.mk vol) :
    Zfs.parseListing (pre ++ line :: suf) =
      .error (if work = [] then ParseError.snapBeforeVolume (String.mk vol) (String.mk snap)
              else ParseError.snapWrongVolume (String.mk vol) (String.mk snap)) := by
  unfold Zfs.parseListing
  rw [Zfs.parseLines_append, hpre]
  simp only [Zfs.parseLines, Zfs.parseLine, hline, hsnap]
  rcases hbad with hnil | ⟨fs, hlast, hne⟩
  · subst hnil
    simp [SnapBuilder.push_snap]
  · have hwne : work ≠ [] := by
      intro h
      rw [h] at hlast
      simp [List.getLast?] at hlast
    simp only [SnapBuilder.push_snap, hlast, if_neg hne, if_neg hwne]

/-- Witness for C8: the snapshot line `pool/b@s1` follows the volume
line for `pool/a`, so parsing fails with the name-mismatch error. -/
theorem parse_snap_adjacency_fails_witness :
    Zfs.parseListing ["pool/a\t/mnt/a", "pool/b@s1\t-"] =
      .error (ParseError.snapWrongVolume "pool/b" "s1") := by
  have h := parse_snap_adjacency_fails ["pool/a\t/mnt/a"] [] "pool/b@s1\t-"
    [⟨"pool/a", [], "/mnt/a"⟩]
    ("pool/b@s1".toList) ("-".toList) ("pool/b".toList) ("s1".toList)
    rfl (by decide) (by decide)
    (Or.inr ⟨⟨"pool/a", [], "/mnt/a"⟩, rfl, by decide⟩)
  simpa using h

/-! ## Clone planner (src/zfs.rs, `Zfs::clone` and `Zfs::clone_one`) -/

/-- External operations issued by the clone planner.  `estimate` is the
dry-run `zfs send -nP` size query; `transfer` is the executed
`zfs send | pv | zfs receive` pipeline of `do_clone` (`ssnap = none`
means a full send, `some s` the incremental `-I @s` form); `createVolume`
is the `zfs create` of `make_volume`. -/
inductive CloneEffect where
  | estimate (source : String) (ssnap : Option String) (dsnap : String)
  | transfer (source dest : String) (ssnap : Option String) (dsnap : String)
  | createVolume (dest : String)
deriving DecidableEq, Repr

/-- Errors returned by the clone planner, named as in the source
messages: `divergedHistory` is `"Last dest snapshot not present in
source"`, `sourceEmpty` is `"Source volume has no snapshots"`, and
`panicNoLast` is the `expect("source has first but no last")` (it is
provably unreachable). -/
inductive CloneError where
  | divergedHistory
  | sourceEmpty
  | panicNoLast
deriving DecidableEq, Repr

/-- `Zfs::clone_one`: plan/execute the transfer of one source filesystem
to its destination counterpart.  Returns the effects issued before
returning, together with the returned error (`none` = `Ok`).  The
destination having a last snapshot selects the incremental branch; an
empty destination snapshot list selects the full-clone branch, whose
first `do_clone` call in the source is not guarded by `perform`. -/
def Zfs.clone_one (source dest : Filesystem) (perform : Bool) :
    List CloneEffect × Option CloneError :=
  match dest.snaps.getLast? with
  | some ssnap =>
    if source.snaps.contains ssnap = false then ([], some .divergedHistory)
    else
      match source.snaps.getLast? with
      | none => ([], some .sourceEmpty)
      | some dsnap =>
        if dsnap = ssnap then ([], none)
        else
          (CloneEffect.estimate source.name (some ssnap) dsnap ::
            (if perform then [CloneEffect.transfer source.name dest.name (some ssnap) dsnap]
             else []), none)
  | none =>
    match source.snaps.head? with
    | none => ([], some .sourceEmpty)
    | some dsnap =>
      let first := [CloneEffect.estimate source.name none dsnap,
                    CloneEffect.transfer source.name dest.name none dsnap]
      match source.snaps.getLast? with
      | none => (first, some .panicNoLast)
      | some dsnap2 =>
        if dsnap = dsnap2 then (first, none)
        else
          (first ++ CloneEffect.estimate source.name (some dsnap) dsnap2 ::
            (if perform then [CloneEffect.transfer source.name dest.name (some dsnap) dsnap2]
             else []), none)

/-- Whether the first character list starts the second one. -/
def startsWithChars : List Char → List Char → Bool
  | [], _ => true
  | _ :: _, [] => false
  | c :: cs, d :: ds => c == d && startsWithChars cs ds

/-- `Zfs::filtered`: the filesystems whose name equals `under` or starts
with `under` followed by a slash (the regex `^under(/.*)?$` with `under`
escaped). -/
def Zfs.filtered (under : String) (fss : List Filesystem) : List Filesystem :=
  fss.filter (fun fs => fs.name = under || startsWithChars ((under ++ "/").toList) fs.name.toList)

/-- The per-filesystem loop of `Zfs::clone`: skip excluded names and
bookmark markers, look the stripped suffix up in the destination map
(last entry wins, as for a `HashMap` built from an iterator), and run
`clone_one`, creating the destination volume first (when `perform`) if it
is absent.  The first error aborts the loop, keeping the effects issued
so far. -/
def Zfs.cloneLoop (source dest : String) (perform : Bool) (excluded : String → Bool)
    (destFs : List Filesystem) : List Filesystem → List CloneEffect × Option CloneError
  | [] => ([], none)
  | src :: rest =>
    if excluded src.name then Zfs.cloneLoop source dest perform excluded destFs rest
    else if src.name.toList.contains '#' then
      Zfs.cloneLoop source dest perform excluded destFs rest
    else
      let suffix := String.mk (src.name.toList.drop source.toList.length)
      match destFs.reverse.find?
          (fun d => String.mk (d.name.toList.drop dest.toList.length) = suffix) with
      | some d =>
        let r := Zfs.clone_one src d perform
        match r.2 with
        | some e => (r.1, some e)
        | none =>
          let rr := Zfs.cloneLoop source dest perform excluded destFs rest
          (r.1 ++ rr.1, rr.2)
      | none =>
        let destfs : Filesystem := ⟨dest ++ suffix, [], "*INVALID*"⟩
        let pre := if perform then [CloneEffect.createVolume destfs.name] else []
        let r := Zfs.clone_one src destfs perform
        match r.2 with
        | some e => (pre ++ r.1, some e)
        | none =>
          let rr := Zfs.cloneLoop source dest perform excluded destFs rest
          (pre ++ r.1 ++ rr.1, rr.2)

/-- `Zfs::clone`: filter both inventories to the requested subtrees and
run the per-filesystem loop.  `excluded` abstracts the compiled
`Exclusions` regex set. -/
def Zfs.clone (selfFs destFsAll : List Filesystem) (source dest : String)
    (perform : Bool) (excluded : String → Bool) : List CloneEffect × Option CloneError :=
  Zfs.cloneLoop source dest perform excluded (Zfs.filtered dest destFsAll)
    (Zfs.filtered source selfFs)

/-- C2 (code bug): with `perform = false` and a source filesystem whose
destination counterpart is absent, `Zfs::clone` still executes the full
seeding transfer: the `do_clone` call in the full-clone branch of
`clone_one` (src/zfs.rs:319) is not guarded by `perform`, unlike the
sibling incremental call.  Here the dry run of cloning `tank` to `back`
issues the real `zfs send | pv | zfs receive` pipeline for
`tank/a@s1`. -/
theorem clone_dry_run_executes_transfer :
    Zfs.clone [⟨"tank/a", ["s1"], "/a"⟩] [] "tank" "back" false (fun _ => false) =
      ([CloneEffect.estimate "tank/a" none "s1",
        CloneEffect.transfer "tank/a" "back/a" none "s1"], none) := by
  rfl

/-- Counterexample for C3: a destination counterpart that exists with an
empty snapshot list does not make `Zfs::clone` fail (no
`EmptyDestination` error exists in the code): the clone returns success,
planning a full seeding transfer instead. -/
theorem clone_empty_dest_no_error :
    Zfs.clone [⟨"tank/a", ["s1"], "/a"⟩] [⟨"back/a", [], "-"⟩] "tank" "back" false
        (fun _ => false) =
      ([CloneEffect.estimate "tank/a" none "s1",
        CloneEffect.transfer "tank/a" "back/a" none "s1"], none) := by
  rfl

/-- C3 (amended): a destination counterpart with an empty snapshot list
is treated exactly like an absent destination: `clone_one` succeeds,
seeding the destination with a full transfer from the earliest source
snapshot, followed by one incremental transfer to the latest source
snapshot when the source has more than one (the seeding transfer is
issued even when `perform` is false, see C2). -/
theorem clone_one_empty_dest_full_clone (source dest : Filesystem) (perform : Bool)
    (s last : String) (hd : dest.snaps = []) (hs : source.snaps.head? = some s)
    (hl : source.snaps.getLast? = some last) :
    Zfs.clone_one source dest perform =
      (CloneEffect.estimate source.name none s ::
        CloneEffect.transfer source.name dest.name none s ::
        (if s = last then []
         else CloneEffect.estimate source.name (some s) last ::
           (if perform then [CloneEffect.transfer source.name dest.name (some s) last]
            else [])), none) := by
  unfold Zfs.clone_one
  rw [hd]
  simp only [List.getLast?_nil, hs, hl]
  by_cases h : s = last <;> simp [h]

/-- Witness for C3 (amended): a two-snapshot source against an existing
empty destination plans the full seed plus the incremental follow-up. -/
theorem clone_one_empty_dest_full_clone_witness :
    Zfs.clone_one ⟨"tank/a", ["s1", "s2"], "/a"⟩ ⟨"back/a", [], "-"⟩ true =
      ([CloneEffect.estimate "tank/a" none "s1",
        CloneEffect.transfer "tank/a" "back/a" none "s1",
        CloneEffect.estimate "tank/a" (some "s1") "s2",
        CloneEffect.transfer "tank/a" "back/a" (some "s1") "s2"], none) := by
  have h := clone_one_empty_dest_full_clone ⟨"tank/a", ["s1", "s2"], "/a"⟩
    ⟨"back/a", [], "-"⟩ true "s1" "s2" rfl rfl rfl
  simpa using h

/-- C4: for a destination counterpart with a non-empty snapshot list,
`clone_one` fails with the diverged-history error when the latest
destination snapshot is unknown to the source; is a no-op (no effect at
all) when it equals the latest source snapshot; and otherwise plans the
size estimate and, exactly when `perform` is set, executes one
incremental transfer from the latest destination snapshot to the latest
source snapshot. -/
theorem clone_one_existing_dest_cases (source dest : Filesystem) (perform : Bool)
    (ssnap : String) (hd : dest.snaps.getLast? = some ssnap) :
    (source.snaps.contains ssnap = false →
      Zfs.clone_one source dest perform = ([], some CloneError.divergedHistory)) ∧
    (source.snaps.getLast? = some ssnap →
      Zfs.clone_one source dest perform = ([], none)) ∧
    (∀ dsnap, source.snaps.contains ssnap = true → source.snaps.getLast? = some dsnap →
      dsnap ≠ ssnap →
      Zfs.clone_one source dest perform =
        (CloneEffect.estimate source.name (some ssnap) dsnap ::
          (if perform then [CloneEffect.transfer source.name dest.name (some ssnap) dsnap]
           else []), none)) := by
  refine ⟨?_, ?_, ?_⟩
  · intro h
    simp only [Zfs.clone_one, hd, h]
    simp
  · intro h
    have hx : ssnap ∈ source.snaps := List.mem_of_mem_getLast? h
    have hmem : source.snaps.contains ssnap = true := by simp [hx]
    simp only [Zfs.clone_one, hd, hmem, h]
    simp
  · intro dsnap hmem hlast hne
    simp only [Zfs.clone_one, hd, hmem, hlast]
    simp [hne]

/-- Witness for C4, third case: source latest `s2`, destination latest
`s1`, one incremental transfer from `s1` to `s2` is planned and
executed. -/
theorem clone_one_existing_dest_cases_witness :
    Zfs.clone_one ⟨"tank/a", ["s1", "s2"], "/a"⟩ ⟨"back/a", ["s1"], "-"⟩ true =
      ([CloneEffect.estimate "tank/a" (some "s1") "s2",
        CloneEffect.transfer "tank/a" "back/a" (some "s1") "s2"], none) := by
  have h := (clone_one_existing_dest_cases ⟨"tank/a", ["s1", "s2"], "/a"⟩
    ⟨"back/a", ["s1"], "-"⟩ true "s1" rfl).2.2 "s2" (by decide) rfl (by decide)
  simpa using h

/-! ## Retention pruner (src/zfs.rs, `Zfs::prune_hanoi` and `Zfs::prune`) -/

/-- `usize::count_ones` on the parsed snapshot index: the number of set
bits of `n`.  Structural fuel recursion (`n` halving steps always suffice
since the binary length of `n` is at most `n` for every positive `n`). -/
def countOnesAux : Nat → Nat → Nat
  | 0, _ => 0
  | fuel + 1, n => if n = 0 then 0 else n % 2 + countOnesAux fuel (n / 2)

/-- The population count (number of set bits) of a snapshot index. -/
def countOnes (n : Nat) : Nat := countOnesAux n n

/-- Numeric value of an ASCII digit. -/
def digitVal (c : Char) : Nat := c.toNat - 48

/-- `Zfs::snap_number`: match a snapshot name against the pattern
`^<pre>(\d{4})-([-\d]+)$` (the compiled `snap_re` with the prefix quoted)
and return the parsed four-digit index.  Digits are modelled as ASCII
digits. -/
def snap_number (pre : String) (s : String) : Option Nat :=
  if startsWithChars pre.toList s.toList then
    match s.toList.drop pre.toList.length with
    | d1 :: d2 :: d3 :: d4 :: '-' :: tl =>
      if (d1.isDigit && d2.isDigit && d3.isDigit && d4.isDigit) &&
          (!tl.isEmpty && tl.all (fun c => c.isDigit || c == '-')) then
        some (((digitVal d1 * 10 + digitVal d2) * 10 + digitVal d3) * 10 + digitVal d4)
      else none
    | _ => none
  else none

/-- The matching snapshots of a filesystem paired with their parsed
indices, newest first: the source filter-maps `snap_number` over
`fs.snaps` (oldest first) and reverses. -/
def matchedNewestFirst (pre : String) (snaps : List String) : List (String × Nat) :=
  (snaps.filterMap (fun sn => (snap_number pre sn).map (fun num => (sn, num)))).reverse

/-- `BTreeSet::insert` on the seen population counts, modelled up to
membership. -/
def insertPop (bc : Nat) (pops : List Nat) : List Nat :=
  if pops.contains bc then pops else bc :: pops

/-- The selection loop of `Zfs::prune_hanoi`: enumerate the matched
snapshots newest first; positions below `keep` are always retained and do
not touch the seen set; a later position is pushed onto the prune list
exactly when the population count of its index is already in the seen
set, and its population count is then inserted. -/
def pruneScan (keep : Nat) (fs_name : String) :
    Nat → List Nat → List (String × Nat) → List String
  | _, _, [] => []
  | idx, pops, (name, num) :: rest =>
    if idx < keep then pruneScan keep fs_name (idx + 1) pops rest
    else
      (if pops.contains (countOnes num) then [fs_name ++ "@" ++ name] else []) ++
        pruneScan keep fs_name (idx + 1) (insertPop (countOnes num) pops) rest

/-- The snapshots `Zfs::prune_hanoi` deletes, in deletion order: the
selection loop output reversed (`to_prune.reverse()`), i.e. oldest
first. -/
def Zfs.prune_hanoi_select (keep : Nat) (pre fs_name : String) (snaps : List String) :
    List String :=
  (pruneScan keep fs_name 0 [] (matchedNewestFirst pre snaps)).reverse

/-- `PRUNE_KEEP`: the number of recent matching snapshots always kept. -/
def PRUNE_KEEP : Nat := 10

/-- External operations of the pruning code: `bookmark` is the attempted
`zfs bookmark`, `logNote` a printed diagnostic, `destroy` the
`zfs destroy` of a snapshot, `wouldPrune` the dry-run report line. -/
inductive PruneEffect where
  | bookmark (vol snap : String)
  | logNote (s : String)
  | destroy (name : String)
  | wouldPrune (name : String)
deriving DecidableEq, Repr

/-- The deletion loop of `Zfs::prune_hanoi` over the selected names:
each is destroyed (or reported) in order; a failing `zfs destroy`
(`checked_run()?`) aborts the run with an error.  `destroyFails` gives
the outcome of each external destroy. -/
def pruneExec (really : Bool) (destroyFails : String → Bool) :
    List String → List PruneEffect × Option String
  | [] => ([], none)
  | n :: rest =>
    if really then
      if destroyFails n then
        ([PruneEffect.destroy n], some ("Error running command: zfs destroy " ++ n))
      else
        let r := pruneExec really destroyFails rest
        (PruneEffect.destroy n :: r.1, r.2)
    else
      let r := pruneExec really destroyFails rest
      (PruneEffect.wouldPrune n :: r.1, r.2)

/-- `Zfs::prune_hanoi`: look up the filesystem by name, select the
prunable snapshots with the Hanoi rule under `PRUNE_KEEP`, and run the
deletion loop.  No bookmark is attempted anywhere in this function. -/
def Zfs.prune_hanoi (pre : String) (fss : List Filesystem) (fs_name : String)
    (really : Bool) (destroyFails : String → Bool) : List PruneEffect × Option String :=
  match fss.find? (fun fs => fs.name = fs_name) with
  | none => ([], some ("Volume not found in zfs " ++ fs_name))
  | some fs =>
    pruneExec really destroyFails (Zfs.prune_hanoi_select PRUNE_KEEP pre fs_name fs.snaps)

/-- `Zfs::prune`: prune a single snapshot.  With `really` set, first
attempt a bookmark (`status()?` with the failure only printed), then
destroy the snapshot (`checked_run()?`, so a destroy failure is the
returned error).  Without `really`, only report. -/
def Zfs.prune (vol snap : String) (really : Bool) (bookmarkFails destroyFails : Bool) :
    List PruneEffect × Option String :=
  if really then
    (PruneEffect.bookmark vol snap ::
      (if bookmarkFails then [PruneEffect.logNote "  error creating bookmark"] else []) ++
      [PruneEffect.destroy (vol ++ "@" ++ snap)],
     if destroyFails then some "Error running command: zfs destroy" else none)
  else ([PruneEffect.wouldPrune (vol ++ "@" ++ snap)], none)

/-- Declarative restatement of the prunability rule, from the spec: a
matched snapshot (scanned newest first, `newer` being the already-scanned
strictly newer matched snapshots) is prunable exactly when it lies
outside the retention window (at least `keep` strictly newer matched
snapshots exist) and some strictly newer out-of-window matched snapshot
has the same population count. -/
def hanoiPrunable (keep : Nat) : List (String × Nat) → List (String × Nat) → List (String × Nat)
  | _, [] => []
  | newer, e :: rest =>
    (if keep ≤ newer.length ∧
        (newer.drop keep).any (fun q => countOnes q.2 == countOnes e.2) = true
     then [e] else []) ++ hanoiPrunable keep (newer ++ [e]) rest

lemma insertPop_contains (bc x : Nat) (pops : List Nat) :
    (insertPop bc pops).contains x = (pops.contains x || bc == x) := by
  unfold insertPop
  by_cases h : pops.contains bc = true
  · simp only [h, if_true]
    by_cases hbx : bc = x
    · subst hbx
      rw [h]
      simp
    · simp [hbx]
  · simp only [h, Bool.false_eq_true, if_false]
    by_cases hbx : bc = x
    · subst hbx
      simp [List.contains_cons]
    · simp [List.contains_cons, hbx, Ne.symm hbx]

lemma pruneScan_eq_hanoiPrunable (keep : Nat) (fs_name : String) :
    ∀ (l newer : List (String × Nat)) (pops : List Nat),
      (∀ x, pops.contains x = (newer.drop keep).any (fun q => countOnes q.2 == x)) →
      pruneScan keep fs_name newer.length pops l =
        (hanoiPrunable keep newer l).map (fun e => fs_name ++ "@" ++ e.1)
  | [], newer, pops, _ => by simp [pruneScan, hanoiPrunable]
  | (name, num) :: rest, newer, pops, hpops => by
    by_cases hk : newer.length < keep
    · have hdrop : (newer ++ [(name, num)]).drop keep = newer.drop keep := by
        rw [List.drop_append_eq_append_drop, List.drop_eq_nil_of_le (le_of_lt hk),
          List.drop_eq_nil_of_le (by simp; omega)]
        simp
      have ih := pruneScan_eq_hanoiPrunable keep fs_name rest (newer ++ [(name, num)]) pops
        (fun x => by rw [hpops x, hdrop])
      simp only [List.length_append, List.length_cons, List.length_nil,
        Nat.zero_add] at ih
      simp only [pruneScan, if_pos hk]
      rw [ih]
      simp only [hanoiPrunable]
      rw [if_neg (fun hcon => absurd hcon.1 (by omega))]
      simp
    · have hk2 : keep ≤ newer.length := Nat.le_of_not_lt hk
      have hdrop : (newer ++ [(name, num)]).drop keep =
          newer.drop keep ++ [(name, num)] := by
        rw [List.drop_append_eq_append_drop, Nat.sub_eq_zero_of_le hk2, List.drop_zero]
      have ih := pruneScan_eq_hanoiPrunable keep fs_name rest (newer ++ [(name, num)])
        (insertPop (countOnes num) pops)
        (fun x => by
          rw [insertPop_contains, hpops x, hdrop]
          simp)
      simp only [List.length_append, List.length_cons, List.length_nil,
        Nat.zero_add] at ih
      simp only [pruneScan, if_neg hk]
      rw [ih, hpops (countOnes num)]
      simp only [hanoiPrunable]
      by_cases hany : (newer.drop keep).any (fun q => countOnes q.2 == countOnes num) = true
      · rw [if_pos hany, if_pos ⟨hk2, hany⟩]
        simp
      · rw [if_neg hany, if_neg (fun hcon => hany hcon.2)]
        simp

lemma mem_hanoiPrunable (keep : Nat) :
    ∀ (l newer : List (String × Nat)) (j : Nat) (hj : j < l.length),
      keep ≤ newer.length + j →
      ((newer ++ l.take j).drop keep).any
        (fun q => countOnes q.2 == countOnes (l.get ⟨j, hj⟩).2) = true →
      l.get ⟨j, hj⟩ ∈ hanoiPrunable keep newer l
  | [], _, j, hj, _, _ => absurd hj (by simp)
  | e :: rest, newer, 0, hj, hkeep, hany => by
    simp only [List.take_zero, List.append_nil] at hany
    simp only [hanoiPrunable]
    rw [if_pos ⟨by simpa using hkeep, by simpa using hany⟩]
    exact List.mem_append_left _ (List.mem_singleton.mpr rfl)
  | e :: rest, newer, j + 1, hj, hkeep, hany => by
    have hj2 : j < rest.length := by simpa using hj
    have harr : newer ++ (e :: rest).take (j + 1) = (newer ++ [e]) ++ rest.take j := by
      simp [List.take_succ_cons]
    have ih := mem_hanoiPrunable keep rest (newer ++ [e]) j hj2
      (by simp; omega)
      (by
        rw [← harr]
        simpa using hany)
    simp only [hanoiPrunable]
    refine List.mem_append_right _ ?_
    simpa using ih

/-- C5: the Hanoi pruning selection.  First conjunct: for every
filesystem name, snapshot list and retention constant `keep` (the code
fixes `keep = PRUNE_KEEP`), the deletion list equals, in oldest-first
deletion order, the declarative rule: non-matching snapshots are ignored
(`matchedNewestFirst` keeps only names accepted by `snap_number`), the
`keep` most recent matching snapshots are never selected, and an
out-of-window matching snapshot is selected exactly when a strictly newer
out-of-window matching snapshot has the same population count — hence
exactly one out-of-window survivor per distinct population count, always
the newest.  Second conjunct (the survivor-uniqueness consequence made
explicit): whenever two out-of-window positions `i < j` (newest first)
carry the same population count, the older one `j` is deleted. -/
theorem prune_hanoi_select_characterization (keep : Nat) (pre fs_name : String)
    (snaps : List String) :
    (Zfs.prune_hanoi_select keep pre fs_name snaps =
      ((hanoiPrunable keep [] (matchedNewestFirst pre snaps)).map
        (fun e => fs_name ++ "@" ++ e.1)).reverse) ∧
    (∀ (i j : Nat) (hi : i < (matchedNewestFirst pre snaps).length)
        (hj : j < (matchedNewestFirst pre snaps).length),
      keep ≤ i → i < j →
      countOnes ((matchedNewestFirst pre snaps).get ⟨i, hi⟩).2 =
        countOnes ((matchedNewestFirst pre snaps).get ⟨j, hj⟩).2 →
      fs_name ++ "@" ++ ((matchedNewestFirst pre snaps).get ⟨j, hj⟩).1 ∈
        Zfs.prune_hanoi_select keep pre fs_name snaps) := by
  have hmain : Zfs.prune_hanoi_select keep pre fs_name snaps =
      ((hanoiPrunable keep [] (matchedNewestFirst pre snaps)).map
        (fun e => fs_name ++ "@" ++ e.1)).reverse := by
    unfold Zfs.prune_hanoi_select
    have h := pruneScan_eq_hanoiPrunable keep fs_name (matchedNewestFirst pre snaps) [] []
      (fun x => by simp)
    simpa using h
  refine ⟨hmain, ?_⟩
  intro i j hi hj hki hij hco
  set ms := matchedNewestFirst pre snaps with hms
  have hkd : keep + (i - keep) < (ms.take j).length := by
    simp [List.length_take]
    omega
  have hdl : i - keep < ((ms.take j).drop keep).length := by
    simp [List.length_drop, List.length_take]
    omega
  have h1 : (ms.take j).get ⟨keep + (i - keep), hkd⟩ =
      ((ms.take j).drop keep).get ⟨i - keep, hdl⟩ :=
    List.get_drop (ms.take j) hkd
  have h2 : ms.get ⟨keep + (i - keep), by omega⟩ =
      (ms.take j).get ⟨keep + (i - keep), hkd⟩ :=
    List.get_take ms (by omega) (by omega)
  have h3 : ms.get ⟨keep + (i - keep), by omega⟩ = ms.get ⟨i, hi⟩ := by
    congr 1
    simp only [Fin.mk.injEq]
    omega
  have hchain : ms.get ⟨i, hi⟩ = ((ms.take j).drop keep).get ⟨i - keep, hdl⟩ :=
    h3.symm.trans (h2.trans h1)
  have hmem : ms.get ⟨i, hi⟩ ∈ (ms.take j).drop keep := by
    rw [hchain]
    exact List.get_mem _ _ _
  have hany : ((([] : List (String × Nat)) ++ ms.take j).drop keep).any
      (fun q => countOnes q.2 == countOnes (ms.get ⟨j, hj⟩).2) = true := by
    refine List.any_eq_true.mpr ⟨ms.get ⟨i, hi⟩, by simpa using hmem, ?_⟩
    simpa using hco
  have hinp := mem_hanoiPrunable keep ms [] j hj (by simpa using hki.trans (le_of_lt hij)) hany
  rw [hmain]
  exact List.mem_reverse.mpr (List.mem_map_of_mem (fun e => fs_name ++ "@" ++ e.1) hinp)

/-- Witness for C5: eight matching snapshots with indices 0..7 and
`keep = 2`; positions 2 (index 5) and 4 (index 3), scanned newest first,
both carry population count 2, so the older snapshot with index 3 is
deleted. -/
theorem prune_hanoi_select_characterization_witness :
    "tank@p0003-1" ∈ Zfs.prune_hanoi_select 2 "p" "tank"
      ["p0000-1", "p0001-1", "p0002-1", "p0003-1", "p0004-1", "p0005-1",
       "p0006-1", "p0007-1"] :=
  (prune_hanoi_select_characterization 2 "p" "tank"
      ["p0000-1", "p0001-1", "p0002-1", "p0003-1", "p0004-1", "p0005-1",
       "p0006-1", "p0007-1"]).2
    2 4 (by decide) (by decide) (by decide) (by decide) (by decide)

/-- Counterexample for C6: with retention window 2 over the eight
chronologically ordered matching snapshots of indices 0..7, the Hanoi
rule does not prune exactly `{2, 3}` (in deletion order that list would
be `[tank@p0002.., tank@p0003..]`): the snapshot of index 1 is also
pruned, since its population count 1 was already seen at the newer
out-of-window indices 4 and 2. -/
theorem prune_hanoi_example_not_claimed :
    Zfs.prune_hanoi_select 2 "p" "tank"
        ["p0000-1", "p0001-1", "p0002-1", "p0003-1", "p0004-1", "p0005-1",
         "p0006-1", "p0007-1"] ≠ ["tank@p0002-1", "tank@p0003-1"] ∧
    "tank@p0001-1" ∈ Zfs.prune_hanoi_select 2 "p" "tank"
        ["p0000-1", "p0001-1", "p0002-1", "p0003-1", "p0004-1", "p0005-1",
         "p0006-1", "p0007-1"] := by
  decide

/-- C6 (amended): with retention window 2 over the eight matching
snapshots of indices 0..7, the Hanoi rule retains exactly the snapshots
of indices `{0, 4, 5, 6, 7}` and deletes exactly those of indices
`{1, 2, 3}`, oldest first.  (Scanning 5,4,3,2,1,0: index 5 records
popcount 2, index 4 records popcount 1, indices 3, 2 and 1 repeat a
recorded popcount, index 0 records popcount 0.) -/
theorem prune_hanoi_example_actual :
    Zfs.prune_hanoi_select 2 "p" "tank"
        ["p0000-1", "p0001-1", "p0002-1", "p0003-1", "p0004-1", "p0005-1",
         "p0006-1", "p0007-1"] =
      ["tank@p0001-1", "tank@p0002-1", "tank@p0003-1"] := by
  decide

/-- Counterexample for C7: a Hanoi pruning run (`Zfs::prune_hanoi`) with
`really = true` destroys its prunable snapshot directly: the resulting
trace is exactly one destroy with no bookmark attempt anywhere (and no
error).  Thirteen matching snapshots with indices 0..12 under
`PRUNE_KEEP = 10` make the snapshot of index 1 prunable. -/
theorem prune_hanoi_destroys_without_bookmark :
    Zfs.prune_hanoi "p"
        [⟨"tank", ["p0000-1", "p0001-1", "p0002-1", "p0003-1", "p0004-1", "p0005-1",
                   "p0006-1", "p0007-1", "p0008-1", "p0009-1", "p0010-1", "p0011-1",
                   "p0012-1"], "/t"⟩]
        "tank" true (fun _ => false) =
      ([PruneEffect.destroy "tank@p0001-1"], none) ∧
    (Zfs.prune_hanoi "p"
        [⟨"tank", ["p0000-1", "p0001-1", "p0002-1", "p0003-1", "p0004-1", "p0005-1",
                   "p0006-1", "p0007-1", "p0008-1", "p0009-1", "p0010-1", "p0011-1",
                   "p0012-1"], "/t"⟩]
        "tank" true (fun _ => false)).1.all
      (fun e => match e with | PruneEffect.bookmark _ _ => false | _ => true) = true := by
  constructor
  · decide
  · decide

/-- C7 (amended): bookmark-before-destroy is the behaviour of the
single-snapshot pruner `Zfs::prune`, not of the Hanoi run.  First
conjunct: `Zfs::prune` with `really = true` always attempts the bookmark
first and then the destroy — a bookmark failure only inserts a logged
note between them and never prevents the destroy — and the run errors
exactly when the destroy fails.  Second conjunct: the deletion loop of
`Zfs::prune_hanoi` never attempts any bookmark, and it errors exactly
when some attempted destroy fails (a destroy failure is fatal). -/
theorem prune_bookmark_behavior :
    (∀ (vol snap : String) (bookmarkFails destroyFails : Bool),
      Zfs.prune vol snap true bookmarkFails destroyFails =
        (PruneEffect.bookmark vol snap ::
          (if bookmarkFails then [PruneEffect.logNote "  error creating bookmark"] else []) ++
          [PruneEffect.destroy (vol ++ "@" ++ snap)],
         if destroyFails then some "Error running command: zfs destroy" else none)) ∧
    (∀ (destroyFails : String → Bool) (names : List String),
      (pruneExec true destroyFails names).1.all
        (fun e => match e with | PruneEffect.bookmark _ _ => false | _ => true) = true ∧
      ((pruneExec true destroyFails names).2.isSome = names.any destroyFails)) := by
  constructor
  · intro vol snap bookmarkFails destroyFails
    simp [Zfs.prune]
  · intro destroyFails names
    induction names with
    | nil => simp [pruneExec]
    | cons n rest ih =>
      by_cases h : destroyFails n
      · simp [pruneExec, h]
      · simp only [pruneExec, if_pos rfl, h, Bool.false_eq_true, if_false]
        simp [ih.1, ih.2, h]
